import Mathlib

/-!
Verification of the Pegasus agent runtime against its specification.

The development shallowly embeds the parts of the repository the claims
concern: the tool-invocation Dispatcher and its concurrency semaphore
(modelled from the spec, since the dispatcher sources are not in the
repository snapshot), the configuration schema (`config-schema.ts`), the
Thinker cognitive step (`cognitive/think.ts`), and the Anthropic language
model client (`infra/anthropic-client.ts`).
-/

namespace Pegasus

/-! ## Opaque JSON-like values crossing the capability boundary -/

/-- An opaque JSON-like value, as passed to and returned from capabilities.
The core never interprets payload contents, so a small closed universe
suffices for the embedding. -/
inductive Value where
  | vnull : Value
  | vbool : Bool → Value
  | vnum : Int → Value
  | vstr : String → Value
  deriving DecidableEq, Repr

/-! ## Error taxonomy (spec section 7) -/

/-- The typed failure kinds a Dispatcher outcome may carry. -/
inductive ErrorKind where
  | NotFound
  | ValidationFailed
  | Timeout
  | ExecutionFailed
  | PermissionDenied
  deriving DecidableEq, Repr

/-! ## Capabilities and the registry -/

/-- Tool categories, from the repository documentation of the tool system. -/
inductive ToolCategory where
  | system | file | network | data | code | mcp | custom
  deriving DecidableEq, Repr

/-- Modelled from the spec: the per-call InvocationContext, created by the
Dispatcher and read-only to the capability (`taskId`, optional `userId`,
optional `allowedPaths`). -/
structure InvocationContext where
  taskId : String
  userId : Option String
  allowedPaths : Option (List String)
  deriving DecidableEq, Repr

/-- The possible behaviours of one capability invocation, abstracting the
asynchronous `invoke(params, context)` call: it may complete with a value
after `d` milliseconds, return a typed (kind, message) failure pair, raise,
or never complete. -/
inductive InvokeBehavior where
  | returns : Nat → Value → InvokeBehavior
  | fails : Nat → ErrorKind → String → InvokeBehavior
  | throws : Nat → String → InvokeBehavior
  | hangs : InvokeBehavior

/-- Modelled from the spec: a Capability as owned by the Registry — a name,
description, category, a structural parameter validator, and the `invoke`
function (represented by its behaviour on each input). -/
structure Capability where
  name : String
  description : String
  category : ToolCategory
  validate : Value → Bool
  invoke : Value → InvocationContext → InvokeBehavior

/-- Modelled from the spec: the Capability Registry, a mapping from
capability name to definition, insertion ordered. -/
structure ToolRegistry where
  caps : List Capability

/-- Look up a capability by name (first registered wins). -/
def ToolRegistry.get (r : ToolRegistry) (name : String) : Option Capability :=
  r.caps.find? (fun c => c.name == name)

/-! ## Outcomes and lifecycle events -/

/-- Modelled from the spec: the Outcome envelope produced by the Dispatcher
for every invocation. -/
structure Outcome where
  capabilityName : String
  success : Bool
  result : Option Value
  errorKind : Option ErrorKind
  errorMessage : Option String
  startedAt : Nat
  completedAt : Nat
  durationMs : Nat
  deriving DecidableEq, Repr

/-- The three lifecycle event kinds emitted on the Event Channel. -/
inductive LifecycleKind where
  | requested | completed | failed
  deriving DecidableEq, BEq, Repr

/-- A lifecycle event, carrying the invocation identity (`invocationId`),
the capability name, the invocation start time and the emission time. -/
structure LifecycleEvent where
  kind : LifecycleKind
  invocationId : Nat
  capabilityName : String
  startedAt : Nat
  timestamp : Nat
  deriving DecidableEq, Repr

/-- Count the events of one kind in an event list. -/
def countKind (es : List LifecycleEvent) (k : LifecycleKind) : Nat :=
  match es with
  | [] => 0
  | e :: rest => (if e.kind = k then 1 else 0) + countKind rest k

/-- A well-formed Outcome: timestamps ordered, duration consistent, payload
present exactly on success and an error kind present exactly on failure. -/
def Outcome.wellFormed (o : Outcome) : Prop :=
  o.startedAt ≤ o.completedAt ∧
  o.durationMs = o.completedAt - o.startedAt ∧
  (o.success = true → o.result.isSome ∧ o.errorKind = none) ∧
  (o.success = false → o.result = none ∧ o.errorKind.isSome)

instance (o : Outcome) : Decidable o.wellFormed := by
  unfold Outcome.wellFormed; infer_instance

/-- Build a failure Outcome. -/
def failureOutcome (name : String) (k : ErrorKind) (msg : String)
    (startedAt completedAt : Nat) : Outcome :=
  { capabilityName := name, success := false, result := none,
    errorKind := some k, errorMessage := some msg,
    startedAt := startedAt, completedAt := completedAt,
    durationMs := completedAt - startedAt }

/-- Build a success Outcome. -/
def successOutcome (name : String) (v : Value)
    (startedAt completedAt : Nat) : Outcome :=
  { capabilityName := name, success := true, result := some v,
    errorKind := none, errorMessage := none,
    startedAt := startedAt, completedAt := completedAt,
    durationMs := completedAt - startedAt }

/-! ## The Dispatcher's execute operation -/

/-- The observable effects of one `execute` call: the Outcome, the emitted
lifecycle events in emission order, whether a semaphore permit was acquired
and released, and the semaphore count after the call returns. -/
structure ExecResult where
  outcome : Outcome
  events : List LifecycleEvent
  permitAcquired : Bool
  permitReleased : Bool
  availAfter : Nat
  deriving Repr

/-- Modelled from the spec: `Dispatcher.execute` (spec section 4.2) — the
dispatcher sources are absent from the snapshot, so the ten-step algorithm
is embedded literally.  Step 1: unknown name gives a `NotFound` failure, a
failed event, and no permit.  Step 2: validation failure gives
`ValidationFailed`, no permit.  Steps 3-8: acquire a permit, emit
`requested`, run `invoke` under the `timeoutMs` deadline (completion after
the deadline, or never, gives `Timeout`), wrap a raise as
`ExecutionFailed` and a typed failure pair as its own kind, release the
permit on every path, and emit the terminal event.
`avail` is the semaphore count when the call starts, `invId` the fresh
invocation identity and `now` the start-of-call clock. -/
def execute (reg : ToolRegistry) (avail : Nat) (invId : Nat) (now : Nat)
    (name : String) (params : Value) (ctx : InvocationContext)
    (timeoutMs : Nat) : ExecResult :=
  match reg.get name with
  | none =>
    { outcome := failureOutcome name .NotFound "capability not found" now now,
      events := [⟨.failed, invId, name, now, now⟩],
      permitAcquired := false, permitReleased := false, availAfter := avail }
  | some cap =>
    if cap.validate params then
      let req : LifecycleEvent := ⟨.requested, invId, name, now, now⟩
      match cap.invoke params ctx with
      | .returns d v =>
        if timeoutMs < d then
          { outcome := failureOutcome name .Timeout "deadline exceeded"
              now (now + timeoutMs),
            events := [req, ⟨.failed, invId, name, now, now + timeoutMs⟩],
            permitAcquired := true, permitReleased := true,
            availAfter := avail }
        else
          { outcome := successOutcome name v now (now + d),
            events := [req, ⟨.completed, invId, name, now, now + d⟩],
            permitAcquired := true, permitReleased := true,
            availAfter := avail }
      | .fails d k msg =>
        if timeoutMs < d then
          { outcome := failureOutcome name .Timeout "deadline exceeded"
              now (now + timeoutMs),
            events := [req, ⟨.failed, invId, name, now, now + timeoutMs⟩],
            permitAcquired := true, permitReleased := true,
            availAfter := avail }
        else
          { outcome := failureOutcome name k msg now (now + d),
            events := [req, ⟨.failed, invId, name, now, now + d⟩],
            permitAcquired := true, permitReleased := true,
            availAfter := avail }
      | .throws d msg =>
        if timeoutMs < d then
          { outcome := failureOutcome name .Timeout "deadline exceeded"
              now (now + timeoutMs),
            events := [req, ⟨.failed, invId, name, now, now + timeoutMs⟩],
            permitAcquired := true, permitReleased := true,
            availAfter := avail }
        else
          { outcome := failureOutcome name .ExecutionFailed msg now (now + d),
            events := [req, ⟨.failed, invId, name, now, now + d⟩],
            permitAcquired := true, permitReleased := true,
            availAfter := avail }
      | .hangs =>
        { outcome := failureOutcome name .Timeout "deadline exceeded"
            now (now + timeoutMs),
          events := [req, ⟨.failed, invId, name, now, now + timeoutMs⟩],
          permitAcquired := true, permitReleased := true,
          availAfter := avail }
    else
      { outcome := failureOutcome name .ValidationFailed
          "parameter validation failed" now now,
        events := [⟨.failed, invId, name, now, now⟩],
        permitAcquired := false, permitReleased := false, availAfter := avail }

/-! ## The concurrency semaphore as a transition system

Modelled from the spec: the global bounded counting semaphore of section
4.2 steps 3, 5 and 7, with the interleaving of any number of concurrent
`execute` calls.  Each in-flight call is a process: it arrives wanting a
permit, acquires one (spec step 3, only when the count is positive), is
then inside the capability-invocation step (spec step 5), and finally
releases its permit (spec step 7). -/

/-- The phase of one in-flight `execute` call with respect to the
semaphore: waiting for a permit, running inside step 5, or finished. -/
inductive ProcPhase where
  | waiting | running | finished
  deriving DecidableEq, Repr

/-- Count the processes in a given phase. -/
def countPhase (x : ProcPhase) : List ProcPhase → Nat
  | [] => 0
  | p :: ps => (if p = x then 1 else 0) + countPhase x ps

/-- The shared state: the semaphore's available permit count and the
phases of all in-flight calls, across all tasks sharing the Dispatcher. -/
structure SemState where
  avail : Nat
  procs : List ProcPhase
  deriving DecidableEq, Repr

/-- Modelled from the spec: one interleaving step of the dispatcher
system.  A new call may arrive at any time (there is no queue-depth
limit); a waiting call acquires a permit only when one is available,
decrementing the count; a running call releases its permit when it leaves
step 5 on any terminating path, incrementing the count. -/
inductive SemStep : SemState → SemState → Prop where
  | arrive (s : SemState) :
      SemStep s ⟨s.avail, s.procs ++ [ProcPhase.waiting]⟩
  | acquire (a : Nat) (ps : List ProcPhase) (i : Nat)
      (h : ps[i]? = some ProcPhase.waiting) :
      SemStep ⟨a + 1, ps⟩ ⟨a, ps.set i ProcPhase.running⟩
  | release (a : Nat) (ps : List ProcPhase) (i : Nat)
      (h : ps[i]? = some ProcPhase.running) :
      SemStep ⟨a, ps⟩ ⟨a + 1, ps.set i ProcPhase.finished⟩

/-- The states reachable from the initial state of a Dispatcher
configured with `N` concurrent-invocation permits and no in-flight call. -/
inductive Reach (N : Nat) : SemState → Prop where
  | init : Reach N ⟨N, []⟩
  | step {s t : SemState} : Reach N s → SemStep s t → Reach N t

lemma countPhase_append (x : ProcPhase) (l1 l2 : List ProcPhase) :
    countPhase x (l1 ++ l2) = countPhase x l1 + countPhase x l2 := by
  induction l1 with
  | nil => simp [countPhase]
  | cons p ps ih => simp [countPhase, ih]; omega

lemma countPhase_set (ps : List ProcPhase) (i : Nat) (old nw x : ProcPhase)
    (h : ps[i]? = some old) :
    countPhase x (ps.set i nw) + (if old = x then 1 else 0)
      = countPhase x ps + (if nw = x then 1 else 0) := by
  induction ps generalizing i with
  | nil => simp at h
  | cons p ps ih =>
    cases i with
    | zero =>
      simp at h
      subst h
      simp [countPhase]
      omega
    | succ j =>
      simp at h
      have := ih j h
      simp [countPhase]
      omega

/-- The key semaphore invariant: in every reachable state, the available
permits plus the calls inside step 5 equal the configured capacity. -/
lemma sem_invariant {N : Nat} {s : SemState} (h : Reach N s) :
    s.avail + countPhase ProcPhase.running s.procs = N := by
  induction h with
  | init => simp [countPhase]
  | step _ hstep ih =>
    cases hstep with
    | arrive s =>
      simp [countPhase_append, countPhase] at *
      omega
    | acquire a ps i hget =>
      have hc := countPhase_set ps i ProcPhase.waiting ProcPhase.running
        ProcPhase.running hget
      simp at hc
      simp at *
      omega
    | release a ps i hget =>
      have hc := countPhase_set ps i ProcPhase.running ProcPhase.finished
        ProcPhase.running hget
      simp at hc
      simp at *
      omega

/-! ## The Cognitive Loop state machine -/

/-- The cognitive phases of one task. -/
inductive LoopState where
  | THINKING | ACTING | REFLECTING | DONE | FAILED
  deriving DecidableEq, Repr

/-- The Reflection Policy's verdict. -/
inductive Verdict where
  | continueWork | replan | complete
  deriving DecidableEq, Repr

/-- The observation driving one transition of the loop. -/
inductive LoopEvent where
  | planReady
  | stepsRemaining
  | planExhausted
  | verdict : Verdict → LoopEvent
  | thinkError
  deriving DecidableEq, Repr

/-- Modelled from the spec: the Cognitive Loop transition function
(spec section 4.4) — the loop sources are absent from the snapshot.
Exceeding the configured maximum number of iterations sends any state to
`FAILED`; otherwise THINKING moves to ACTING once a plan is produced (or
to FAILED on an unrecoverable thinking error), ACTING iterates plan steps
then moves to REFLECTING, and REFLECTING follows the verdict.  `DONE` and
`FAILED` are terminal. -/
def loopStep (maxIter : Int) (iteration : Nat) (s : LoopState)
    (e : LoopEvent) : LoopState :=
  if maxIter < (iteration : Int) then .FAILED
  else
    match s, e with
    | .THINKING, .planReady => .ACTING
    | .THINKING, .thinkError => .FAILED
    | .ACTING, .stepsRemaining => .ACTING
    | .ACTING, .planExhausted => .REFLECTING
    | .REFLECTING, .verdict .continueWork => .ACTING
    | .REFLECTING, .verdict .replan => .THINKING
    | .REFLECTING, .verdict .complete => .DONE
    | st, _ => st

/-! ## Configuration schema (`src/infra/config-schema.ts`)

`AgentConfigSchema` applies `z.coerce.number().int().positive().default(d)`
to the integer fields and `z.coerce.number().positive().default(60)` to the
heartbeat interval.  Raw (already number-coerced) inputs are modelled as
optional rationals; an absent field takes the default, a present one must
be an integer (where `int()` is used) and strictly positive. -/

/-- The raw input to `AgentConfigSchema`, one optional number per field. -/
structure AgentConfigInput where
  maxActiveTasks : Option ℚ
  maxConcurrentTools : Option ℚ
  maxCognitiveIterations : Option ℚ
  heartbeatInterval : Option ℚ
  deriving DecidableEq, Repr

/-- The parsed agent configuration. -/
structure AgentConfig where
  maxActiveTasks : Int
  maxConcurrentTools : Int
  maxCognitiveIterations : Int
  heartbeatInterval : ℚ
  deriving DecidableEq, Repr

/-- One field of the schema: `z.coerce.number().int().positive().default d`.
Absent values take the default; present values must be strictly positive
integers. -/
def parsePositiveInt (d : Int) : Option ℚ → Except String Int
  | none => .ok d
  | some q =>
    if q.den = 1 ∧ 0 < q.num then .ok q.num
    else .error "expected a positive integer"

/-- One field of the schema: `z.coerce.number().positive().default d`. -/
def parsePositiveNum (d : ℚ) : Option ℚ → Except String ℚ
  | none => .ok d
  | some q => if 0 < q then .ok q else .error "expected a positive number"

/-- `AgentConfigSchema.parse`: field-wise validation with the defaults of
`config-schema.ts` (5 active tasks, 3 concurrent tools, 10 cognitive
iterations, 60s heartbeat). -/
def AgentConfigSchema.parse (i : AgentConfigInput) :
    Except String AgentConfig :=
  match parsePositiveInt 5 i.maxActiveTasks,
      parsePositiveInt 3 i.maxConcurrentTools,
      parsePositiveInt 10 i.maxCognitiveIterations,
      parsePositiveNum 60 i.heartbeatInterval with
  | .ok a, .ok t, .ok c, .ok h => .ok ⟨a, t, c, h⟩
  | .error e, _, _, _ => .error e
  | _, .error e, _, _ => .error e
  | _, _, .error e, _ => .error e
  | _, _, _, .error e => .error e

/-! ## The Thinker (`src/cognitive/think.ts`) -/

/-- A chat message as in `infra/llm-types.ts`. -/
structure Message where
  role : String
  content : String
  deriving DecidableEq, Repr

/-- A raw task-history message (`context.messages` entries), whose content
may be absent; `Thinker.run` maps it through `String(m.content ?? "")`. -/
structure RawMessage where
  role : String
  content : Option String
  deriving DecidableEq, Repr

/-- The task context fields `Thinker.run` reads. -/
structure TaskContext where
  iteration : Nat
  messages : List RawMessage
  inputText : String
  deriving DecidableEq, Repr

/-- The reasoning record `Thinker.run` returns. -/
structure Reasoning where
  response : String
  approach : String
  needsClarification : Bool
  deriving DecidableEq, Repr

/-- The history mapping in `Thinker.run`: each raw message becomes a chat
message with content `String(m.content ?? "")`. -/
def mapHistory (ms : List RawMessage) : List Message :=
  ms.map (fun m => { role := m.role, content := m.content.getD "" })

/-- The message list `Thinker.run` passes to `generateText`: the mapped
history, with the current input text pushed as a trailing user message
when the history is empty or its last content differs from the input. -/
def thinkMessages (context : TaskContext) : List Message :=
  let msgs := mapHistory context.messages
  if (msgs.getLast?.map Message.content) = some context.inputText then msgs
  else msgs ++ [{ role := "user", content := context.inputText }]

/-- `Thinker.run`: builds the message list, calls the model (`gen system
messages` stands for `generateText`'s returned text) and wraps the text in
a reasoning record with approach `"direct"`. -/
def Thinker.run (gen : String → List Message → String) (system : String)
    (context : TaskContext) : Reasoning :=
  { response := gen system (thinkMessages context),
    approach := "direct",
    needsClarification := false }

/-! ## The Anthropic client (`src/infra/anthropic-client.ts`) -/

/-- JavaScript `x || d` on an optional number: `undefined` and the falsy
`0` both yield the default. -/
def jsOrNat (x : Option Nat) (d : Nat) : Nat :=
  match x with
  | none => d
  | some n => if n = 0 then d else n

/-- JavaScript `x || d` on a nullable string: `null` and the falsy empty
string both yield the default. -/
def jsOrStr (x : Option String) (d : String) : String :=
  match x with
  | none => d
  | some s => if s = "" then d else s

/-- The options accepted by `LanguageModel.generate`. -/
structure GenerateOptions where
  system : Option String
  messages : List Message
  temperature : Option ℚ
  maxTokens : Option Nat
  topP : Option ℚ

/-- The request body sent to `client.messages.create`. -/
structure AnthropicRequest where
  model : String
  system : Option String
  messages : List Message
  temperature : Option ℚ
  max_tokens : Nat
  top_p : Option ℚ
  deriving Repr

/-- One content block of an Anthropic response. -/
inductive ContentBlock where
  | text : String → ContentBlock
  | other : String → ContentBlock
  deriving DecidableEq, Repr

/-- Token usage reported by the API. -/
structure AnthropicUsage where
  input_tokens : Nat
  output_tokens : Nat
  deriving DecidableEq, Repr

/-- The response returned by `client.messages.create`. -/
structure AnthropicResponse where
  content : List ContentBlock
  stop_reason : Option String
  usage : AnthropicUsage

/-- The result shape of `LanguageModel.generate`. -/
structure GenerateTextResult where
  text : String
  finishReason : String
  promptTokens : Nat
  completionTokens : Nat
  deriving DecidableEq, Repr

/-- The request construction inside `createAnthropicCompatibleModel`'s
`generate`: `max_tokens` is `options.maxTokens || 4096`. -/
def buildAnthropicRequest (model : String) (o : GenerateOptions) :
    AnthropicRequest :=
  { model := model, system := o.system, messages := o.messages,
    temperature := o.temperature,
    max_tokens := jsOrNat o.maxTokens 4096,
    top_p := o.topP }

/-- Text extraction from the response content: keep the `"text"` blocks,
take their text and join with `""`. -/
def extractText : List ContentBlock → String
  | [] => ""
  | .text s :: rest => s ++ extractText rest
  | .other _ :: rest => extractText rest

/-- The `generate` method of the Anthropic client: builds the request,
calls the API (`api`), extracts the text, and maps `stop_reason` through
`response.stop_reason || "stop"`. -/
def anthropicGenerate (model : String)
    (api : AnthropicRequest → AnthropicResponse)
    (o : GenerateOptions) : GenerateTextResult :=
  let resp := api (buildAnthropicRequest model o)
  { text := extractText resp.content,
    finishReason := jsOrStr resp.stop_reason "stop",
    promptTokens := resp.usage.input_tokens,
    completionTokens := resp.usage.output_tokens }

/-! ## Concrete fixtures used to evaluate the theorems -/

/-- A registry with no capability registered. -/
def emptyRegistry : ToolRegistry := ⟨[]⟩

/-- A concrete invocation context. -/
def ctx0 : InvocationContext := ⟨"task-1", none, none⟩

/-- A capability that returns its parameter promptly. -/
def echoCap : Capability :=
  ⟨"echo", "returns its input", .system, fun _ => true,
    fun p _ => .returns 5 p⟩

/-- A capability that raises during execution. -/
def throwingCap : Capability :=
  ⟨"boom", "raises", .system, fun _ => true,
    fun _ _ => .throws 5 "boom"⟩

/-- A capability that never completes. -/
def hangingCap : Capability :=
  ⟨"hang", "never returns", .system, fun _ => true, fun _ _ => .hangs⟩

/-- A registry holding the three demo capabilities. -/
def demoRegistry : ToolRegistry := ⟨[echoCap, throwingCap, hangingCap]⟩

/-! ## Supporting lemmas -/

lemma failureOutcome_wellFormed (name : String) (k : ErrorKind) (msg : String)
    (s c : Nat) (h : s ≤ c) : (failureOutcome name k msg s c).wellFormed := by
  unfold failureOutcome Outcome.wellFormed
  simp [h]

lemma successOutcome_wellFormed (name : String) (v : Value)
    (s c : Nat) (h : s ≤ c) : (successOutcome name v s c).wellFormed := by
  unfold successOutcome Outcome.wellFormed
  simp [h]

lemma parsePositiveInt_ok_pos {d : Int} (hd : 0 < d) {o : Option ℚ} {n : Int}
    (h : parsePositiveInt d o = .ok n) : 0 < n := by
  cases o with
  | none =>
    simp [parsePositiveInt] at h
    omega
  | some q =>
    simp only [parsePositiveInt] at h
    split at h
    · rename_i hc
      injection h with h
      omega
    · exact absurd h (by simp)

lemma parsePositiveInt_ok_none {d n : Int}
    (h : parsePositiveInt d none = .ok n) : n = d := by
  simp [parsePositiveInt] at h
  omega

/-! ## Claim theorems -/

/-- Claim C1: for every set of concurrently in-flight calls to the
Dispatcher's execute, at most N of them (N = the configured max concurrent
invocations) are simultaneously inside the capability-invocation step
(step 5), across all tasks sharing the Dispatcher instance: in every state
reachable from the initial state of the semaphore system, the number of
running invocations is at most the configured capacity. -/
theorem concurrent_invocations_bounded {N : Nat} {s : SemState}
    (h : Reach N s) : countPhase ProcPhase.running s.procs ≤ N := by
  have hinv := sem_invariant h
  omega

theorem concurrent_invocations_bounded_witness :
    countPhase ProcPhase.running
      (SemState.mk 1 [ProcPhase.running]).procs ≤ 2 :=
  concurrent_invocations_bounded
    (Reach.step (Reach.step Reach.init (SemStep.arrive ⟨2, []⟩))
      (SemStep.acquire 1 [ProcPhase.waiting] 0 rfl))

/-- Claim C2: for every capability name not present in the Registry,
execute returns a failure Outcome with errorKind = NotFound and does not
acquire a concurrency permit — the permit count is unchanged by the
call. -/
theorem execute_notFound_no_permit (reg : ToolRegistry)
    (avail invId now : Nat) (name : String) (params : Value)
    (ctx : InvocationContext) (timeoutMs : Nat)
    (h : reg.get name = none) :
    (execute reg avail invId now name params ctx timeoutMs).outcome.errorKind
        = some ErrorKind.NotFound ∧
    (execute reg avail invId now name params ctx timeoutMs).outcome.success
        = false ∧
    (execute reg avail invId now name params ctx timeoutMs).permitAcquired
        = false ∧
    (execute reg avail invId now name params ctx timeoutMs).availAfter
        = avail := by
  simp [execute, h, failureOutcome]

theorem execute_notFound_no_permit_witness :
    (execute emptyRegistry 3 7 100 "missing" Value.vnull ctx0
        30000).outcome.errorKind = some ErrorKind.NotFound ∧
    (execute emptyRegistry 3 7 100 "missing" Value.vnull ctx0
        30000).outcome.success = false ∧
    (execute emptyRegistry 3 7 100 "missing" Value.vnull ctx0
        30000).permitAcquired = false ∧
    (execute emptyRegistry 3 7 100 "missing" Value.vnull ctx0
        30000).availAfter = 3 :=
  execute_notFound_no_permit emptyRegistry 3 7 100 "missing" Value.vnull
    ctx0 30000 rfl

/-- Claim C3: for every execute call that acquires a concurrency permit,
the permit is released on every terminating path — success, failure
Outcome, or timeout — including when the capability-invocation step
throws; the semaphore count after the call equals the count before. -/
theorem execute_releases_permit (reg : ToolRegistry)
    (avail invId now : Nat) (name : String) (params : Value)
    (ctx : InvocationContext) (timeoutMs : Nat)
    (h : (execute reg avail invId now name params ctx
        timeoutMs).permitAcquired = true) :
    (execute reg avail invId now name params ctx timeoutMs).permitReleased
        = true ∧
    (execute reg avail invId now name params ctx timeoutMs).availAfter
        = avail := by
  cases hget : reg.get name with
  | none => simp [execute, hget] at h
  | some cap =>
    by_cases hv : cap.validate params
    · cases hb : cap.invoke params ctx <;>
        simp [execute, hget, hv, hb] <;> split <;> simp
    · simp [execute, hget, hv] at h

theorem execute_releases_permit_witness :
    (execute demoRegistry 3 0 0 "boom" Value.vnull ctx0
        30000).permitReleased = true ∧
    (execute demoRegistry 3 0 0 "boom" Value.vnull ctx0 30000).availAfter
        = 3 :=
  execute_releases_permit demoRegistry 3 0 0 "boom" Value.vnull ctx0 30000
    (by decide)

/-- Claim C5: for every input (capability name, raw parameters, context,
timeout), execute terminates in a well-formed Outcome — no capability
failure (lookup miss, validation failure, timeout, or raised exception
during invoke) escapes the Dispatcher as an uncaught fault. -/
theorem execute_outcome_wellFormed (reg : ToolRegistry)
    (avail invId now : Nat) (name : String) (params : Value)
    (ctx : InvocationContext) (timeoutMs : Nat) :
    (execute reg avail invId now name params ctx
        timeoutMs).outcome.wellFormed := by
  cases hget : reg.get name with
  | none =>
    simp only [execute, hget]
    exact failureOutcome_wellFormed _ _ _ _ _ (Nat.le_refl _)
  | some cap =>
    by_cases hv : cap.validate params
    · cases hb : cap.invoke params ctx <;> simp only [execute, hget, hv] <;>
        simp only [hb, if_true] <;> first
        | exact failureOutcome_wellFormed _ _ _ _ _ (Nat.le_add_right _ _)
        | (split <;> first
            | exact failureOutcome_wellFormed _ _ _ _ _ (Nat.le_add_right _ _)
            | exact successOutcome_wellFormed _ _ _ _ (Nat.le_add_right _ _))
    · simp only [execute, hget, hv, if_false, Bool.false_eq_true]
      exact failureOutcome_wellFormed _ _ _ _ _ (Nat.le_refl _)

/-- Claim C4, counterexample: a call whose capability name is unknown
emits no `requested` event at all (spec section 4.2 step 1 emits only a
failed event on the lookup-miss path), so it is not the case that every
execute call emits exactly one `requested` lifecycle event. -/
theorem execute_requested_event_counterexample :
    ¬ countKind (execute emptyRegistry 3 0 0 "missing" Value.vnull ctx0
        30000).events LifecycleKind.requested = 1 := by
  decide

/-- Claim C4 (amended): every execute call emits exactly one terminal
lifecycle event — `completed` or `failed` but not both; a call that
passes lookup and validation additionally emits exactly one `requested`
event, while a lookup or validation failure emits exactly one `failed`
event, no `completed` event and no `requested` event; and all events of
one call carry the same invocation identity and start time. -/
theorem execute_lifecycle_events (reg : ToolRegistry)
    (avail invId now : Nat) (name : String) (params : Value)
    (ctx : InvocationContext) (timeoutMs : Nat) :
    countKind (execute reg avail invId now name params ctx timeoutMs).events
        LifecycleKind.completed
      + countKind (execute reg avail invId now name params ctx
          timeoutMs).events LifecycleKind.failed = 1 ∧
    (∀ cap, reg.get name = some cap → cap.validate params = true →
      countKind (execute reg avail invId now name params ctx
          timeoutMs).events LifecycleKind.requested = 1) ∧
    (reg.get name = none →
      countKind (execute reg avail invId now name params ctx
          timeoutMs).events LifecycleKind.requested = 0 ∧
      countKind (execute reg avail invId now name params ctx
          timeoutMs).events LifecycleKind.failed = 1 ∧
      countKind (execute reg avail invId now name params ctx
          timeoutMs).events LifecycleKind.completed = 0) ∧
    (∀ cap, reg.get name = some cap → cap.validate params = false →
      countKind (execute reg avail invId now name params ctx
          timeoutMs).events LifecycleKind.requested = 0 ∧
      countKind (execute reg avail invId now name params ctx
          timeoutMs).events LifecycleKind.failed = 1 ∧
      countKind (execute reg avail invId now name params ctx
          timeoutMs).events LifecycleKind.completed = 0) ∧
    (∀ e ∈ (execute reg avail invId now name params ctx timeoutMs).events,
      e.invocationId = invId ∧ e.startedAt = now) := by
  cases hget : reg.get name with
  | none => simp [execute, hget, countKind]
  | some cap =>
    by_cases hv : cap.validate params
    · cases hb : cap.invoke params ctx <;>
        simp [execute, hget, hv, hb, countKind] <;> split <;>
        simp [countKind]
    · simp [execute, hget, hv, countKind]

theorem execute_lifecycle_events_witness :
    (countKind (execute demoRegistry 3 0 0 "echo" Value.vnull ctx0
        30000).events LifecycleKind.completed
      + countKind (execute demoRegistry 3 0 0 "echo" Value.vnull ctx0
          30000).events LifecycleKind.failed = 1) ∧
    (countKind (execute emptyRegistry 3 0 0 "missing" Value.vnull ctx0
        30000).events LifecycleKind.requested = 0 ∧
      countKind (execute emptyRegistry 3 0 0 "missing" Value.vnull ctx0
          30000).events LifecycleKind.failed = 1 ∧
      countKind (execute emptyRegistry 3 0 0 "missing" Value.vnull ctx0
          30000).events LifecycleKind.completed = 0) :=
  ⟨(execute_lifecycle_events demoRegistry 3 0 0 "echo" Value.vnull ctx0
      30000).1,
    (execute_lifecycle_events emptyRegistry 3 0 0 "missing" Value.vnull
      ctx0 30000).2.2.1 rfl⟩

lemma agentConfig_parse_fields {i : AgentConfigInput} {cfg : AgentConfig}
    (h : AgentConfigSchema.parse i = .ok cfg) :
    parsePositiveInt 5 i.maxActiveTasks = .ok cfg.maxActiveTasks ∧
    parsePositiveInt 3 i.maxConcurrentTools = .ok cfg.maxConcurrentTools ∧
    parsePositiveInt 10 i.maxCognitiveIterations
        = .ok cfg.maxCognitiveIterations ∧
    parsePositiveNum 60 i.heartbeatInterval = .ok cfg.heartbeatInterval := by
  unfold AgentConfigSchema.parse at h
  cases ha : parsePositiveInt 5 i.maxActiveTasks with
  | error e => rw [ha] at h; simp at h
  | ok a =>
    cases ht : parsePositiveInt 3 i.maxConcurrentTools with
    | error e => rw [ha, ht] at h; simp at h
    | ok t =>
      cases hc : parsePositiveInt 10 i.maxCognitiveIterations with
      | error e => rw [ha, ht, hc] at h; simp at h
      | ok c =>
        cases hn : parsePositiveNum 60 i.heartbeatInterval with
        | error e => rw [ha, ht, hc, hn] at h; simp at h
        | ok b =>
          rw [ha, ht, hc, hn] at h
          injection h with h
          subst h
          refine ⟨?_, ?_, ?_, ?_⟩ <;> simp [ha, ht, hc, hn]

/-- Claim C6: when the configuration does not specify a value, the max
concurrent tool invocations setting defaults to 3, and the configured
value is always a strictly positive integer. -/
theorem maxConcurrentTools_default_and_positive (i : AgentConfigInput)
    (cfg : AgentConfig) (h : AgentConfigSchema.parse i = .ok cfg) :
    0 < cfg.maxConcurrentTools ∧
    (i.maxConcurrentTools = none → cfg.maxConcurrentTools = 3) := by
  obtain ⟨-, ht, -, -⟩ := agentConfig_parse_fields h
  refine ⟨parsePositiveInt_ok_pos (by norm_num) ht, fun hnone => ?_⟩
  rw [hnone] at ht
  exact parsePositiveInt_ok_none ht

theorem maxConcurrentTools_default_and_positive_witness :
    0 < (AgentConfig.mk 5 3 10 60).maxConcurrentTools ∧
    ((AgentConfigInput.mk none none none none).maxConcurrentTools = none →
      (AgentConfig.mk 5 3 10 60).maxConcurrentTools = 3) :=
  maxConcurrentTools_default_and_positive ⟨none, none, none, none⟩
    ⟨5, 3, 10, 60⟩ rfl

/-- Claim C7: when the configuration does not specify a value, the maximum
number of cognitive loop iterations defaults to 10; exceeding the
configured maximum transitions the Cognitive Loop to FAILED from any
state. -/
theorem maxCognitiveIterations_default_and_loop_failed
    (i : AgentConfigInput) (cfg : AgentConfig)
    (h : AgentConfigSchema.parse i = .ok cfg) :
    (i.maxCognitiveIterations = none → cfg.maxCognitiveIterations = 10) ∧
    ∀ (s : LoopState) (e : LoopEvent) (it : Nat),
      cfg.maxCognitiveIterations < (it : Int) →
      loopStep cfg.maxCognitiveIterations it s e = LoopState.FAILED := by
  obtain ⟨-, -, hc, -⟩ := agentConfig_parse_fields h
  constructor
  · intro hnone
    rw [hnone] at hc
    exact parsePositiveInt_ok_none hc
  · intro s e it hit
    unfold loopStep
    rw [if_pos hit]

theorem maxCognitiveIterations_default_and_loop_failed_witness :
    loopStep (AgentConfig.mk 5 3 10 60).maxCognitiveIterations 11
        LoopState.ACTING LoopEvent.planExhausted = LoopState.FAILED :=
  (maxCognitiveIterations_default_and_loop_failed ⟨none, none, none, none⟩
      ⟨5, 3, 10, 60⟩ rfl).2 LoopState.ACTING LoopEvent.planExhausted 11
    (by decide)

/-- Claim C8: for every task context, Thinker.run returns a reasoning
record whose response field equals exactly the text produced by the
language model's generate call, whose approach field is always the string
"direct", and whose needsClarification field is always false. -/
theorem thinker_run_reasoning (gen : String → List Message → String)
    (system : String) (context : TaskContext) :
    (Thinker.run gen system context).response
        = gen system (thinkMessages context) ∧
    (Thinker.run gen system context).approach = "direct" ∧
    (Thinker.run gen system context).needsClarification = false :=
  ⟨rfl, rfl, rfl⟩

/-- Claim C9: Thinker.run appends the task's current input text as a
trailing user message to the model's message list if and only if the
mapped conversation history is empty or its last message's content differs
from the input text; otherwise the history is passed unchanged. -/
theorem thinker_messages_append_iff (context : TaskContext) :
    ((mapHistory context.messages = [] ∨
        (mapHistory context.messages).getLast?.map Message.content
            ≠ some context.inputText) →
      thinkMessages context
        = mapHistory context.messages
            ++ [{ role := "user", content := context.inputText }]) ∧
    ((mapHistory context.messages).getLast?.map Message.content
        = some context.inputText →
      thinkMessages context = mapHistory context.messages) := by
  constructor
  · intro hc
    rcases hc with hempty | hne
    · simp [thinkMessages, hempty]
    · simp [thinkMessages, hne]
  · intro hc
    simp [thinkMessages, hc]

theorem thinker_messages_append_iff_witness :
    thinkMessages ⟨0, [], "hi"⟩
      = mapHistory []
          ++ [{ role := "user", content := "hi" : Message }] :=
  (thinker_messages_append_iff ⟨0, [], "hi"⟩).1 (Or.inl rfl)

/-- Claim C10: for every generate call on the Anthropic language-model
client where options.maxTokens is not provided, the request sent to the
API carries max_tokens = 4096; and when the API response's stop_reason is
null, the returned finishReason is the string "stop". -/
theorem anthropic_maxTokens_default_and_stopReason (model : String)
    (api : AnthropicRequest → AnthropicResponse) (o : GenerateOptions)
    (hmax : o.maxTokens = none)
    (hstop : (api (buildAnthropicRequest model o)).stop_reason = none) :
    (buildAnthropicRequest model o).max_tokens = 4096 ∧
    (anthropicGenerate model api o).finishReason = "stop" := by
  constructor
  · simp [buildAnthropicRequest, jsOrNat, hmax]
  · simp [anthropicGenerate, jsOrStr, hstop]

/-- A stub API returning a response with a null stop_reason. -/
def apiStub : AnthropicRequest → AnthropicResponse :=
  fun _ => { content := [ContentBlock.text "ok"], stop_reason := none,
             usage := ⟨1, 1⟩ }

/-- Generate options with no maxTokens set. -/
def genOpts0 : GenerateOptions := ⟨none, [], none, none, none⟩

theorem anthropic_maxTokens_default_and_stopReason_witness :
    (buildAnthropicRequest "claude" genOpts0).max_tokens = 4096 ∧
    (anthropicGenerate "claude" apiStub genOpts0).finishReason = "stop" :=
  anthropic_maxTokens_default_and_stopReason "claude" apiStub genOpts0 rfl
    rfl

end Pegasus
